import Mathlib

/-!
Shallow embedding of the RSI broadcaster server (rsi-broadcaster revision
with snapshot-on-connect, heartbeat timers and the extended key-synonym
list), together with proofs of the testable properties of its
specification.

The embedding models:
  * JavaScript field values (numbers with NaN, strings, null) and their
    truthiness, as used by the `||` chains and `if` guards of the server;
  * the builtin `parseFloat` on the decimal literal forms this system
    feeds it (sign, integer digits, optional fraction; exponent and
    Infinity literal forms are not used by any record shape here);
  * the per-message normalization performed inside `eachMessage`
    (token-key resolution, rsi/price parsing, timestamp fallback);
  * the module-level state: the `latest` object (an insertion-ordered
    string-keyed map), the `clients` set of SSE sessions, the per-session
    heartbeat timers, and the ordered log of channel writes;
  * the handlers: `broadcastSse`, `GET /events` (register), the
    `close` handler (deregister), a heartbeat timer tick, the startup
    try/catch around `runConsumer`, and `shutdown`.

Session channels are identified by natural numbers; a `failing` predicate
says which channels throw on `write` (the try/catch around each write is
modelled by dropping the write and counting the logged error).
-/

namespace RsiBroadcaster

/-- A JavaScript value as it occurs in the fields of a parsed record:
a number (`num (some q)` a finite number, `num none` NaN), a string, or
null. An absent field is represented by `Option JsVal` being `none`
(JavaScript `undefined`). -/
inductive JsVal where
  | num (x : Option ℚ)
  | str (s : String)
  | null
deriving DecidableEq, Repr

/-- JavaScript truthiness of a possibly absent field value: `undefined`,
`null`, `NaN`, `0` and the empty string are falsy, everything else here
is truthy. -/
def truthy : Option JsVal → Bool
  | none => false
  | some JsVal.null => false
  | some (JsVal.num none) => false
  | some (JsVal.num (some q)) => q != 0
  | some (JsVal.str s) => s != ""

/-- Digits accumulated into a natural number, most significant first. -/
def digitsToNat (ds : List ℕ) : ℕ := ds.foldl (fun a d => 10 * a + d) 0

/-- Splits a character list into its longest leading run of decimal
digits (as digit values) and the remainder. -/
def takeDigits : List Char → List ℕ × List Char
  | [] => ([], [])
  | c :: cs =>
    if c.isDigit then
      let p := takeDigits cs
      ((c.toNat - 48) :: p.1, p.2)
    else ([], c :: cs)

/-- Unsigned decimal body of `parseFloat`: longest prefix of the form
`digits`, `digits.digits` or `.digits`; `none` when no digit is found
(the NaN result). Trailing garbage is ignored, as `parseFloat` does. -/
def parseFloatCore (cs : List Char) : Option ℚ :=
  let ip := takeDigits cs
  let fp :=
    match ip.2 with
    | '.' :: r => takeDigits r
    | _ => ([], [])
  if ip.1.isEmpty && fp.1.isEmpty then none
  else
    some (mkRat (Int.ofNat (digitsToNat ip.1 * 10 ^ fp.1.length + digitsToNat fp.1))
      (10 ^ fp.1.length))

/-- Model of the JavaScript builtin `parseFloat` on a string: leading
whitespace skipped, optional sign, then the longest decimal-literal
prefix; `none` models the NaN result. -/
def parseFloatM (s : String) : Option ℚ :=
  let cs := s.toList.dropWhile (fun c => c == ' ' || c == '\t' || c == '\n' || c == '\r')
  match cs with
  | '-' :: rest => (parseFloatCore rest).map (fun q => -q)
  | '+' :: rest => parseFloatCore rest
  | _ => parseFloatCore cs

/-- `parseFloat` applied to an arbitrary (possibly absent) field value:
the argument is coerced to a string first, so a finite number parses back
to itself while `undefined`, `null` and `NaN` stringify to words that do
not parse. -/
def parseFloatOf : Option JsVal → Option ℚ
  | some (JsVal.str s) => parseFloatM s
  | some (JsVal.num (some q)) => some q
  | some (JsVal.num none) => none
  | some JsVal.null => none
  | none => none

/-- The coercion of a JavaScript value to an object property key.
For the rational case, `toString` agrees with JavaScript number
formatting on integers, which is the only numeric-key shape reachable
from the record fields used here. -/
def jsKeyString : JsVal → String
  | JsVal.str s => s
  | JsVal.null => "null"
  | JsVal.num none => "NaN"
  | JsVal.num (some q) => toString q

/-- A parsed inbound record (the result of `JSON.parse` on a message
value), restricted to the fields `eachMessage` reads. `none` is an
absent field. -/
structure RawRecord where
  token_address : Option JsVal := none
  token : Option JsVal := none
  tokenAddress : Option JsVal := none
  tokenAddr : Option JsVal := none
  key : Option JsVal := none
  rsi : Option JsVal := none
  price : Option JsVal := none
  price_in_sol : Option JsVal := none
  priceInSol : Option JsVal := none
  timestamp_ms : Option JsVal := none
deriving DecidableEq, Repr

/-- First truthy value of a list of field values, as a `||` chain
computes it; `none` when every field is falsy. -/
def firstTruthy : List (Option JsVal) → Option JsVal
  | [] => none
  | v :: rest => if truthy v then v else firstTruthy rest

/-- Token-key resolution of `eachMessage`: the chain
`parsed.token_address || parsed.token || parsed.tokenAddress ||
parsed.tokenAddr || parsed.key || "unknown"`. -/
def resolveTokenVal (r : RawRecord) : JsVal :=
  if truthy r.token_address then r.token_address.getD JsVal.null
  else if truthy r.token then r.token.getD JsVal.null
  else if truthy r.tokenAddress then r.tokenAddress.getD JsVal.null
  else if truthy r.tokenAddr then r.tokenAddr.getD JsVal.null
  else if truthy r.key then r.key.getD JsVal.null
  else JsVal.str "unknown"

/-- The string key under which `eachMessage` stores the record. -/
def tokenOf (r : RawRecord) : String := jsKeyString (resolveTokenVal r)

/-- The rsi resolution
`typeof parsed.rsi === "number" ? parsed.rsi : parseFloat(parsed.rsi)`;
`none` is a NaN or missing result, mapped to null by the
`Number.isFinite` guard at store time. -/
def resolveRsi (r : RawRecord) : Option ℚ :=
  match r.rsi with
  | some (JsVal.num x) => x
  | v => parseFloatOf v

/-- The price resolution chain of `eachMessage`:
`if (typeof parsed.price === "number") price = parsed.price; else if
(parsed.price_in_sol) price = parseFloat(parsed.price_in_sol); else if
(parsed.price) price = parseFloat(parsed.price); else if
(parsed.priceInSol) price = parseFloat(parsed.priceInSol);`. A `none`
result covers both the no-branch-taken case (`price` left undefined) and
a NaN parse, both of which the `Number.isFinite` guard stores as null. -/
def resolvePrice (r : RawRecord) : Option ℚ :=
  match r.price with
  | some (JsVal.num x) => x
  | _ =>
    if truthy r.price_in_sol then parseFloatOf r.price_in_sol
    else if truthy r.price then parseFloatOf r.price
    else if truthy r.priceInSol then parseFloatOf r.priceInSol
    else none

/-- The timestamp resolution `parsed.timestamp_ms || Date.now()`, with
`now` the current wall-clock milliseconds. A truthy upstream value is
kept verbatim, whatever its type. -/
def resolveTimestamp (r : RawRecord) (now : ℚ) : JsVal :=
  if truthy r.timestamp_ms then r.timestamp_ms.getD JsVal.null
  else JsVal.num (some now)

/-- The object stored in `latest[token]`: rsi and price after the
`Number.isFinite` guard (`none` is the stored null), and the timestamp
value. -/
structure StoredEntry where
  rsi : Option ℚ
  price : Option ℚ
  timestamp_ms : JsVal
deriving DecidableEq, Repr

/-- The `latest` object: an insertion-ordered mapping from token key to
its stored entry, as JavaScript string-keyed objects behave. -/
abbrev Store := List (String × StoredEntry)

/-- Property assignment `latest[k] = v`: replaces the entry at an
existing key in place, otherwise appends the new key at the end. -/
def upsert : Store → String → StoredEntry → Store
  | [], k, v => [(k, v)]
  | p :: rest, k, v => if p.1 = k then (k, v) :: rest else p :: upsert rest k v

/-- Property read `latest[k]`. -/
def lookupStore (st : Store) (k : String) : Option StoredEntry :=
  (st.find? (fun p => p.1 == k)).map Prod.snd

/-- The canonical event `eachMessage` builds from a parsed record:
the value assigned to `latest[token]`. -/
def canonicalEntry (r : RawRecord) (now : ℚ) : StoredEntry :=
  { rsi := resolveRsi r, price := resolvePrice r, timestamp_ms := resolveTimestamp r now }

/-- One SSE message as written to a session channel: a comment line, the
type-tagged snapshot message sent at connect, or a type-tagged live
update. -/
inductive SseMsg where
  | comment (text : String)
  | snapshotMsg (entries : Store)
  | update (token : String) (entry : StoredEntry)
deriving DecidableEq, Repr

/-- The store mutation and broadcast of `eachMessage` after a successful
parse: write `latest[token]`, then build the payload
`{ token, ...latest[token] }` by reading the store back, and emit the
update message. -/
def processRecord (st : Store) (r : RawRecord) (now : ℚ) : Store × SseMsg :=
  let token := tokenOf r
  let entry := canonicalEntry r now
  let st2 := upsert st token entry
  (st2, SseMsg.update token ((lookupStore st2 token).getD entry))

/-- The full `eachMessage` body on one inbound bus message:
`raw = message.value && message.value.toString()`; a falsy `raw`
(absent value or empty string) returns with no effect; `decoded` is the
result of the builtin `JSON.parse raw` supplied as an oracle, `none`
meaning the parse threw (logged as an error, record skipped). The third
component counts error log lines emitted. -/
def eachMessage (st : Store) (raw : Option String) (decoded : Option RawRecord)
    (now : ℚ) : Store × List SseMsg × ℕ :=
  match raw with
  | none => (st, [], 0)
  | some s =>
    if s = "" then (st, [], 0)
    else
      match decoded with
      | none => (st, [], 1)
      | some r =>
        let p := processRecord st r now
        (p.1, [p.2], 0)

/-- Store evolution over a whole consumed sequence of successfully
parsed records, each paired with the wall clock at its processing. -/
def processAll (rs : List (RawRecord × ℚ)) : Store :=
  rs.foldl (fun st p => (processRecord st p.1 p.2).1) []

/-- Module-level server state: the `latest` store, the `clients` session
set (insertion ordered), the set of sessions with a live heartbeat
timer, and the ordered log of successful channel writes. -/
structure ServerState where
  latest : Store
  clients : List ℕ
  timers : List ℕ
  written : List (ℕ × SseMsg)
deriving DecidableEq, Repr

/-- The `broadcastSse` function: iterate the client set in order and
`try { res.write(payload) } catch { console.error(...) }` on each. A
failing channel write is logged (second component counts the logged
errors) and nothing else happens to that session: it stays registered.
-/
def broadcastSse (failing : ℕ → Bool) (st : ServerState) (msg : SseMsg) :
    ServerState × ℕ :=
  ({ st with
      written := st.written ++ (st.clients.filter (fun c => !failing c)).map (fun c => (c, msg)) },
    (st.clients.filter (fun c => failing c)).length)

/-- The `GET /events` handler for a connecting session `sid`: write the
`: connected` comment, then, only when the snapshot is nonempty, write
one type-tagged snapshot message holding the entire store; then add the
session to `clients` and start its heartbeat timer. -/
def register (st : ServerState) (sid : ℕ) : ServerState :=
  let w1 := st.written ++ [(sid, SseMsg.comment "connected")]
  let w2 := if st.latest = [] then w1 else w1 ++ [(sid, SseMsg.snapshotMsg st.latest)]
  { st with
      written := w2
      clients := if sid ∈ st.clients then st.clients else st.clients ++ [sid]
      timers := if sid ∈ st.timers then st.timers else st.timers ++ [sid] }

/-- The `close` handler: `clearInterval(heartbeat)` and
`clients.delete(res)` for the disconnected session. -/
def deregister (st : ServerState) (sid : ℕ) : ServerState :=
  { st with
      clients := st.clients.filter (fun c => c != sid)
      timers := st.timers.filter (fun c => c != sid) }

/-- One firing of the 25-second heartbeat timer of session `sid`: the
timer only fires while still installed, and then writes the heartbeat
comment unless the channel write throws (a throw is swallowed by the
empty catch). -/
def heartbeatTick (failing : ℕ → Bool) (st : ServerState) (sid : ℕ) : ServerState :=
  if sid ∈ st.timers then
    if failing sid then st
    else { st with written := st.written ++ [(sid, SseMsg.comment "heartbeat")] }
  else st

/-- The try/catch in the `app.listen` callback around `runConsumer`:
when connect or subscribe fails the process calls `process.exit(1)`
(result `some 1`); otherwise the process keeps serving (`none`). -/
def startConsumerOutcome (connectAndSubscribeOk : Bool) : Option ℕ :=
  if connectAndSubscribeOk then none else some 1

/-- The `shutdown` handler installed on the interrupt and terminate
signals: close the HTTP server, end and clear every client session, try
to disconnect the consumer (a failure is caught and logged), and in the
`finally` block call `process.exit(0)`. The second component is the exit
code. -/
def shutdownRun (st : ServerState) (disconnectFails : Bool) : ServerState × ℕ :=
  ({ st with clients := [] }, 0)

/-- The raw record `\x7b\x7d`: every field absent. -/
def emptyRaw : RawRecord := {}

/-- The keys of a store, in iteration order. -/
def keyList (st : Store) : List String := st.map Prod.fst

theorem processRecord_fst (st : Store) (r : RawRecord) (now : ℚ) :
    (processRecord st r now).1 = upsert st (tokenOf r) (canonicalEntry r now) := rfl

theorem lookupStore_upsert (st : Store) (k : String) (v : StoredEntry) :
    lookupStore (upsert st k v) k = some v := by
  induction st with
  | nil => simp [upsert, lookupStore]
  | cons p rest ih =>
    by_cases h : p.1 = k
    · simp [upsert, h, lookupStore]
    · simp only [upsert, if_neg h, lookupStore, List.find?]
      rw [show (p.1 == k) = false from by simp [h]]
      exact ih

theorem processRecord_snd (st : Store) (r : RawRecord) (now : ℚ) :
    (processRecord st r now).2 = SseMsg.update (tokenOf r) (canonicalEntry r now) := by
  simp [processRecord, lookupStore_upsert]

theorem keyList_nil : keyList [] = [] := rfl

theorem keyList_cons (p : String × StoredEntry) (st : Store) :
    keyList (p :: st) = p.1 :: keyList st := rfl

theorem keyList_upsert (st : Store) (k : String) (v : StoredEntry) :
    keyList (upsert st k v) =
      if k ∈ keyList st then keyList st else keyList st ++ [k] := by
  induction st with
  | nil => simp [upsert, keyList]
  | cons p rest ih =>
    by_cases h : p.1 = k
    · subst h
      simp [upsert, keyList_cons]
    · have hne : ¬k = p.1 := fun hk => h hk.symm
      rw [show upsert (p :: rest) k v = p :: upsert rest k v from by simp [upsert, h]]
      rw [keyList_cons, keyList_cons, ih]
      by_cases hm : k ∈ keyList rest
      · simp [hm, hne]
      · simp [hm, hne]

theorem keyList_nodup_upsert (st : Store) (k : String) (v : StoredEntry)
    (h : (keyList st).Nodup) : (keyList (upsert st k v)).Nodup := by
  rw [keyList_upsert]
  by_cases hm : k ∈ keyList st
  · simpa [hm] using h
  · simp [hm, List.nodup_append, h]

theorem filter_key_nil (st : Store) (k : String) (h : k ∉ keyList st) :
    st.filter (fun p => p.1 == k) = [] := by
  induction st with
  | nil => rfl
  | cons p rest ih =>
    simp [keyList] at h
    rw [List.filter_cons, show (p.1 == k) = false from by simp [Ne.symm h.1]]
    exact ih (by simp [keyList, h.2])

theorem filter_upsert (st : Store) (k : String) (v : StoredEntry)
    (h : (keyList st).Nodup) :
    (upsert st k v).filter (fun p => p.1 == k) = [(k, v)] := by
  induction st with
  | nil => simp [upsert, List.filter]
  | cons p rest ih =>
    have htl : (keyList rest).Nodup := (List.nodup_cons.mp h).2
    by_cases hpk : p.1 = k
    · have hk : k ∉ keyList rest := by
        have := (List.nodup_cons.mp h).1
        simpa [keyList, hpk] using this
      simp [upsert, hpk, List.filter_cons, filter_key_nil rest k hk]
    · rw [show upsert (p :: rest) k v = p :: upsert rest k v from by simp [upsert, hpk]]
      rw [List.filter_cons, show (p.1 == k) = false from by simp [hpk]]
      exact ih htl

theorem keyList_processAll_nodup (rs : List (RawRecord × ℚ)) :
    (keyList (processAll rs)).Nodup := by
  suffices h : ∀ st : Store, (keyList st).Nodup →
      (keyList (rs.foldl (fun st p => (processRecord st p.1 p.2).1) st)).Nodup by
    exact h [] (by simp [keyList])
  induction rs with
  | nil => intro st h; simpa using h
  | cons x xs ih =>
    intro st h
    simp only [List.foldl_cons]
    exact ih _ (by rw [processRecord_fst]; exact keyList_nodup_upsert _ _ _ h)

theorem processAll_append (rs : List (RawRecord × ℚ)) (x : RawRecord × ℚ) :
    processAll (rs ++ [x]) = (processRecord (processAll rs) x.1 x.2).1 := by
  simp [processAll, List.foldl_append]

/-- C1 counterexample: the empty raw record is not rejected. Processing
it at wall clock 0 modifies the store, filing the record under the
placeholder key "unknown", and emits a broadcast update — contradicting
the claim that the store stays unmodified and nothing is broadcast. -/
theorem unresolved_key_counterexample :
    (processRecord [] emptyRaw 0).1 ≠ [] ∧
    (processRecord [] emptyRaw 0).1 =
      [("unknown", { rsi := none, price := none, timestamp_ms := JsVal.num (some 0) })] ∧
    (processRecord [] emptyRaw 0).2 =
      SseMsg.update "unknown"
        { rsi := none, price := none, timestamp_ms := JsVal.num (some 0) } := by
  refine ⟨by decide, by decide, by decide⟩

/-- C1 amended: a raw record in which none of the accepted key fields
(token_address, token, tokenAddress, tokenAddr, key) is present with a
truthy (non-empty) value is not rejected: it is stored in the
latest-value store under the placeholder key "unknown" and broadcast as
an update for that key. -/
theorem unresolved_key_stored_as_unknown (st : Store) (r : RawRecord) (now : ℚ)
    (h1 : truthy r.token_address = false) (h2 : truthy r.token = false)
    (h3 : truthy r.tokenAddress = false) (h4 : truthy r.tokenAddr = false)
    (h5 : truthy r.key = false) :
    processRecord st r now =
      (upsert st "unknown" (canonicalEntry r now),
       SseMsg.update "unknown" (canonicalEntry r now)) := by
  have ht : tokenOf r = "unknown" := by
    simp [tokenOf, resolveTokenVal, h1, h2, h3, h4, h5, jsKeyString]
  simp [processRecord, ht, lookupStore_upsert]

/-- Witness for C1 amended at the empty record and wall clock 5. -/
theorem unresolved_key_stored_as_unknown_witness :
    processRecord [] emptyRaw 5 =
      ([("unknown", canonicalEntry emptyRaw 5)],
       SseMsg.update "unknown" (canonicalEntry emptyRaw 5)) :=
  unresolved_key_stored_as_unknown [] emptyRaw 5 rfl rfl rfl rfl rfl

/-- C2: after any sequence of accepted records followed by a record with
entity key k, the snapshot contains exactly one entry for k and it
equals the canonical event of that most recent record for k
(last-write-wins). -/
theorem snapshot_last_write_wins (rs : List (RawRecord × ℚ)) (r : RawRecord) (now : ℚ) :
    (processAll (rs ++ [(r, now)])).filter (fun p => p.1 == tokenOf r) =
      [(tokenOf r, canonicalEntry r now)] := by
  rw [processAll_append, processRecord_fst]
  exact filter_upsert _ _ _ (keyList_processAll_nodup rs)

/-- C9: for every accepted record the broadcast live update carries
exactly the token and entry just written to the latest-value store: the
push payload and the pull snapshot entry coincide. -/
theorem broadcast_matches_store (st : Store) (r : RawRecord) (now : ℚ) :
    (processRecord st r now).2 = SseMsg.update (tokenOf r) (canonicalEntry r now) ∧
    lookupStore (processRecord st r now).1 (tokenOf r) =
      some (canonicalEntry r now) := by
  refine ⟨processRecord_snd st r now, ?_⟩
  rw [processRecord_fst]
  exact lookupStore_upsert st (tokenOf r) (canonicalEntry r now)

/-- C10: a bus message whose value is absent or empty is skipped with no
effect at all — store unchanged, no broadcast, no error log line —
whereas a nonempty undecodable value logs exactly one error (and still
has no other effect). -/
theorem empty_value_no_effect (st : Store) (d : Option RawRecord) (now : ℚ)
    (s : String) (hs : s ≠ "") :
    eachMessage st none d now = (st, [], 0) ∧
    eachMessage st (some "") d now = (st, [], 0) ∧
    eachMessage st (some s) none now = (st, [], 1) := by
  refine ⟨rfl, by simp [eachMessage], by simp [eachMessage, hs]⟩

/-- Witness for C10 at the empty store and the undecodable value
"nonsense". -/
theorem empty_value_no_effect_witness :
    eachMessage [] none none 0 = ([], [], 0) ∧
    eachMessage [] (some "") none 0 = ([], [], 0) ∧
    eachMessage [] (some "nonsense") none 0 = ([], [], 1) :=
  empty_value_no_effect [] none 0 "nonsense" (by decide)

/-- Modelled from the spec words of the amended C5: the price synonym
fields form an explicit ordered list; the first field with a truthy
value is selected and only that one field is parsed. -/
def amendedPriceResolve (r : RawRecord) : Option ℚ :=
  match r.price with
  | some (JsVal.num x) => x
  | _ => parseFloatOf (firstTruthy [r.price_in_sol, r.price, r.priceInSol])

/-- A record whose first truthy price synonym fails to parse while a
later synonym would parse. -/
def cexPriceRec : RawRecord :=
  { price_in_sol := some (JsVal.str "abc"), priceInSol := some (JsVal.str "1.5") }

/-- C5 counterexample: on a record with price_in_sol = "abc" (selected,
fails to parse) and priceInSol = "1.5" (parses to 3/2), the claim says
the first successfully parsing field wins, so the price should be 3/2;
the code records null instead, because it never falls through to a
later synonym after a failed parse. -/
theorem price_first_parse_counterexample :
    parseFloatOf cexPriceRec.price_in_sol = none ∧
    parseFloatOf cexPriceRec.priceInSol = some (mkRat 3 2) ∧
    resolvePrice cexPriceRec = none ∧
    (canonicalEntry cexPriceRec 0).price ≠ some (mkRat 3 2) := by
  have hp : (canonicalEntry cexPriceRec 0).price = none := rfl
  exact ⟨by rfl, by rfl, by rfl, by simp [hp]⟩

/-- C5 amended: price resolution selects the first truthy field in the
fixed synonym order (numeric price, price_in_sol, price as a string,
priceInSol) and parses only that field; if no synonym is truthy, or the
selected field fails to parse as a float, the price is recorded as
absent (null), not zero — later synonyms are never consulted. -/
theorem price_resolution_amended (r : RawRecord) :
    resolvePrice r = amendedPriceResolve r := by
  have h : ∀ a b c : Option JsVal,
      (if truthy a then parseFloatOf a
       else if truthy b then parseFloatOf b
       else if truthy c then parseFloatOf c else none) =
        parseFloatOf (firstTruthy [a, b, c]) := by
    intro a b c
    by_cases ha : truthy a <;> by_cases hb : truthy b <;> by_cases hc : truthy c <;>
      simp [firstTruthy, ha, hb, hc, parseFloatOf]
  unfold resolvePrice amendedPriceResolve
  rcases hp : r.price with _ | v
  · simp only [hp]
    exact h r.price_in_sol none r.priceInSol
  · cases v with
    | num x => simp only [hp]
    | str s =>
      simp only [hp]
      exact h r.price_in_sol (some (JsVal.str s)) r.priceInSol
    | null =>
      simp only [hp]
      exact h r.price_in_sol (some JsVal.null) r.priceInSol

/-- A record with a present numeric timestamp 0. -/
def tsZeroRec : RawRecord :=
  { token := some (JsVal.str "A"), timestamp_ms := some (JsVal.num (some 0)) }

/-- A record with a present non-numeric timestamp string. -/
def tsStrRec : RawRecord :=
  { token := some (JsVal.str "A"), timestamp_ms := some (JsVal.str "soon") }

/-- C6 counterexample: with wall clock 777, a present numeric timestamp
0 is replaced by the wall clock (the claim says the upstream 0 must be
kept), and a present non-numeric timestamp string is kept verbatim (the
claim says the wall clock must be substituted). -/
theorem timestamp_counterexample :
    (canonicalEntry tsZeroRec 777).timestamp_ms = JsVal.num (some 777) ∧
    (canonicalEntry tsZeroRec 777).timestamp_ms ≠ JsVal.num (some 0) ∧
    (canonicalEntry tsStrRec 777).timestamp_ms = JsVal.str "soon" ∧
    (canonicalEntry tsStrRec 777).timestamp_ms ≠ JsVal.num (some 777) := by
  refine ⟨by decide, by decide, by decide, by decide⟩

/-- C6 amended: the stored timestamp equals the upstream timestamp_ms
whenever that value is truthy — present and not 0, NaN, null or the
empty string — and is kept verbatim even when non-numeric; otherwise
(absent or falsy, including a present numeric 0) the wall clock at
normalization is substituted. -/
theorem timestamp_resolution_amended (r : RawRecord) (now : ℚ) :
    (∀ v, r.timestamp_ms = some v → truthy r.timestamp_ms = true →
      (canonicalEntry r now).timestamp_ms = v) ∧
    (truthy r.timestamp_ms = false →
      (canonicalEntry r now).timestamp_ms = JsVal.num (some now)) := by
  constructor
  · intro v hv htr
    have h2 : truthy (some v) = true := hv ▸ htr
    simp [canonicalEntry, resolveTimestamp, hv, h2]
  · intro hf
    simp [canonicalEntry, resolveTimestamp, hf]

/-- Witness for C6 amended: a truthy string timestamp is kept verbatim,
and an absent timestamp is replaced by the wall clock 777. -/
theorem timestamp_resolution_amended_witness :
    (canonicalEntry tsStrRec 777).timestamp_ms = JsVal.str "soon" ∧
    (canonicalEntry emptyRaw 777).timestamp_ms = JsVal.num (some 777) :=
  ⟨(timestamp_resolution_amended tsStrRec 777).1 (JsVal.str "soon") rfl (by decide),
   (timestamp_resolution_amended emptyRaw 777).2 rfl⟩

/-- A stored entry with both numeric fields null. -/
def entry0 : StoredEntry := { rsi := none, price := none, timestamp_ms := JsVal.null }

/-- A server state with two registered sessions 0 and 1. -/
def st01 : ServerState := { latest := [], clients := [0, 1], timers := [0, 1], written := [] }

/-- C3 counterexample: broadcasting to the registry [0, 1] where channel
0 throws on write delivers the event to the healthy session 1, but the
failing session 0 is NOT removed: the registry still contains both
sessions afterwards, contradicting the claimed deregistration. -/
theorem failing_session_counterexample :
    (broadcastSse (fun n => n == 0) st01 (SseMsg.update "A" entry0)).1.clients = [0, 1] ∧
    (broadcastSse (fun n => n == 0) st01 (SseMsg.update "A" entry0)).1.clients ≠ [1] ∧
    (1, SseMsg.update "A" entry0) ∈
      (broadcastSse (fun n => n == 0) st01 (SseMsg.update "A" entry0)).1.written ∧
    (0, SseMsg.update "A" entry0) ∉
      (broadcastSse (fun n => n == 0) st01 (SseMsg.update "A" entry0)).1.written := by
  exact ⟨by decide, by decide, by decide, by decide⟩

/-- C3 amended: a write failure on one session never blocks delivery to
any other session, and only an error is logged — the failing session is
NOT deregistered. With registry [a, b] where only channel a throws, the
healthy session b receives the event, the registry is unchanged, one
error is logged, and a second broadcast is again attempted on both
registered sessions and again reaches exactly b. -/
theorem failing_session_amended (a b : ℕ) (hab : a ≠ b) (st : ServerState)
    (hcl : st.clients = [a, b]) (hw : st.written = []) (e1 e2 : SseMsg) :
    (broadcastSse (fun n => n == a) st e1).1.written = [(b, e1)] ∧
    (broadcastSse (fun n => n == a) st e1).2 = 1 ∧
    (broadcastSse (fun n => n == a) st e1).1.clients = [a, b] ∧
    (broadcastSse (fun n => n == a) (broadcastSse (fun n => n == a) st e1).1 e2).1.written
      = [(b, e1), (b, e2)] ∧
    (broadcastSse (fun n => n == a) (broadcastSse (fun n => n == a) st e1).1 e2).1.clients
      = [a, b] := by
  have hba : (b == a) = false := by simp [Ne.symm hab]
  simp [broadcastSse, hcl, hw, hba, List.filter_cons]

/-- Witness for C3 amended with sessions 0 (failing) and 1 (healthy). -/
theorem failing_session_amended_witness :
    (broadcastSse (fun n => n == 0) st01 (SseMsg.comment "x")).1.written
      = [(1, SseMsg.comment "x")] ∧
    (broadcastSse (fun n => n == 0) st01 (SseMsg.comment "x")).2 = 1 ∧
    (broadcastSse (fun n => n == 0) st01 (SseMsg.comment "x")).1.clients = [0, 1] ∧
    (broadcastSse (fun n => n == 0)
        (broadcastSse (fun n => n == 0) st01 (SseMsg.comment "x")).1
        (SseMsg.comment "y")).1.written
      = [(1, SseMsg.comment "x"), (1, SseMsg.comment "y")] ∧
    (broadcastSse (fun n => n == 0)
        (broadcastSse (fun n => n == 0) st01 (SseMsg.comment "x")).1
        (SseMsg.comment "y")).1.clients = [0, 1] :=
  failing_session_amended 0 1 (by decide) st01 rfl rfl (SseMsg.comment "x") (SseMsg.comment "y")

/-- C4 counterexample: a session connecting while the store is empty
receives only the connected comment — no snapshot message at all is
written, because the code guards the snapshot write behind a nonempty
check; the claim as universally stated (for every store state with N
entries, N = 0 included) therefore fails. -/
theorem register_snapshot_counterexample :
    (register { latest := [], clients := [], timers := [], written := [] } 7).written
      = [(7, SseMsg.comment "connected")] ∧
    (7, SseMsg.snapshotMsg []) ∉
      (register { latest := [], clients := [], timers := [], written := [] } 7).written := by
  exact ⟨by decide, by decide⟩

/-- C4 amended: whenever the store is nonempty (N ≥ 1 entries), a
connecting session immediately receives, right after the connected
comment, a single distinctly-tagged snapshot message carrying the entire
store, and only afterwards can any live-update broadcast reach it; a
subsequent update is indeed delivered to it after those two messages.
When the store is empty no snapshot message is sent. -/
theorem register_snapshot_amended (st : ServerState) (sid : ℕ) (failing : ℕ → Bool)
    (tk : String) (e : StoredEntry) (hsnap : st.latest ≠ []) (hok : failing sid = false) :
    (register st sid).written =
      st.written ++ [(sid, SseMsg.comment "connected"), (sid, SseMsg.snapshotMsg st.latest)] ∧
    sid ∈ (register st sid).clients ∧
    (broadcastSse failing (register st sid) (SseMsg.update tk e)).1.written =
      (register st sid).written ++
        ((register st sid).clients.filter (fun c => !failing c)).map
          (fun c => (c, SseMsg.update tk e)) ∧
    (sid, SseMsg.update tk e) ∈
      (broadcastSse failing (register st sid) (SseMsg.update tk e)).1.written := by
  have hmem : sid ∈ (register st sid).clients := by
    by_cases h : sid ∈ st.clients <;> simp [register, h]
  refine ⟨?_, hmem, rfl, ?_⟩
  · simp [register, hsnap]
  · refine List.mem_append.mpr (Or.inr ?_)
    exact List.mem_map.mpr ⟨sid, List.mem_filter.mpr ⟨hmem, by simp [hok]⟩, rfl⟩

/-- A server state whose store holds one entry. -/
def stSnap : ServerState :=
  { latest := [("A", entry0)], clients := [], timers := [], written := [] }

/-- Witness for C4 amended: session 3 connects to a server holding one
snapshot entry, then one update is broadcast. -/
theorem register_snapshot_amended_witness :
    (register stSnap 3).written =
      stSnap.written ++
        [(3, SseMsg.comment "connected"), (3, SseMsg.snapshotMsg stSnap.latest)] ∧
    3 ∈ (register stSnap 3).clients ∧
    (broadcastSse (fun _ => false) (register stSnap 3) (SseMsg.update "A" entry0)).1.written =
      (register stSnap 3).written ++
        ((register stSnap 3).clients.filter (fun c => !(fun _ : ℕ => false) c)).map
          (fun c => (c, SseMsg.update "A" entry0)) ∧
    (3, SseMsg.update "A" entry0) ∈
      (broadcastSse (fun _ => false) (register stSnap 3) (SseMsg.update "A" entry0)).1.written :=
  register_snapshot_amended stSnap 3 (fun _ => false) "A" entry0 (by decide) rfl

/-- Writes produced by a broadcast loop carry only keys from the client
list: if a session is absent from the list, broadcasting adds nothing
keyed by it. -/
theorem writes_filter_nil (l : List ℕ) (failing : ℕ → Bool) (m : SseMsg) (sid : ℕ)
    (h : sid ∉ l) :
    ((l.filter (fun c => !failing c)).map (fun c => (c, m))).filter
      (fun p => p.1 == sid) = [] := by
  induction l with
  | nil => rfl
  | cons c cs ih =>
    simp only [List.mem_cons, not_or] at h
    by_cases hf : failing c
    · rw [List.filter_cons, if_neg (by simp [hf])]
      exact ih h.2
    · rw [List.filter_cons, if_pos (by simp [hf]), List.map_cons, List.filter_cons,
        if_neg (by simp [Ne.symm h.1])]
      exact ih h.2

/-- C7: once a session is deregistered it is gone from the registry and
the timer set, its heartbeat timer is cancelled (a further tick writes
nothing), broadcasts add no write keyed by it, and deregistration is
idempotent — the session receives neither heartbeats nor broadcasts
after deregistration. -/
theorem deregister_quiescence (st : ServerState) (sid : ℕ) (failing : ℕ → Bool) (m : SseMsg) :
    sid ∉ (deregister st sid).clients ∧
    sid ∉ (deregister st sid).timers ∧
    heartbeatTick failing (deregister st sid) sid = deregister st sid ∧
    (broadcastSse failing (deregister st sid) m).1.written.filter (fun p => p.1 == sid) =
      (deregister st sid).written.filter (fun p => p.1 == sid) ∧
    deregister (deregister st sid) sid = deregister st sid := by
  have hnc : sid ∉ (deregister st sid).clients := by
    simp [deregister, List.mem_filter]
  have hnt : sid ∉ (deregister st sid).timers := by
    simp [deregister, List.mem_filter]
  refine ⟨hnc, hnt, ?_, ?_, ?_⟩
  · simp [heartbeatTick, hnt]
  · simp only [broadcastSse, List.filter_append]
    rw [writes_filter_nil _ failing m sid hnc, List.append_nil]
  · simp [deregister, List.filter_filter]

/-- C8: the shutdown handler always exits with code 0 — even when the
consumer disconnect throws, the catch swallows the error and the finally
block still exits 0 — after clearing every client session; a startup
connect/subscribe failure exits the process with code 1, so the server
never keeps serving after a failed startup, while a successful startup
keeps the process running. -/
theorem exit_codes (st : ServerState) (disconnectFails : Bool) :
    (shutdownRun st disconnectFails).2 = 0 ∧
    (shutdownRun st disconnectFails).1.clients = [] ∧
    startConsumerOutcome false = some 1 ∧
    startConsumerOutcome false ≠ none ∧
    startConsumerOutcome true = none := by
  exact ⟨rfl, rfl, rfl, by simp [startConsumerOutcome], rfl⟩

end RsiBroadcaster
